import Mathlib

/-!
Shallow embedding of the `bun-split-file` library (src/index.ts): the
`splitFile` argument validation and partition planning, its streaming write
loop, and the `mergeFiles` ordering / validation / checksum pipeline,
together with theorems checking the specification's claims against them.

File contents are modelled as `List Char` (one `Char` per byte; no byte
arithmetic occurs), paths as `String`, the file store of a merge call as an
association list from path to content, and the opaque incremental hasher as
a function from a whole byte sequence to its hex digest string.  JS numeric
arguments (which can be fractional or negative) are modelled as rationals.
-/

namespace BunSplitFile

/-! ### splitFile: error messages (src/index.ts lines 63-141, 188-195) -/

def msgEmpty : String := "File is empty!"

def msgNotInteger : String := "Part size and number of parts should be an integer"

def msgCountTooSmall : String := "Number of parts cannot be zero or negative"

def msgPartTooBig (partSize : ℚ) (fileSize : ℕ) : String :=
  "Part size cannot bigger than file size: part size " ++ toString partSize ++
    " > file size " ++ toString fileSize

def msgPartNegative : String := "Part size cannot be negative or zero"

def msgTooManyParts : String := "Number of parts is too large"

def msgIOFailure : String := "I/O write failed"

/-! ### splitFile: options and planning -/

/-- The two variants of `SplitFileOptions.splitBy` (src/types.d.ts); the
numeric payloads are JS numbers, hence rationals here.  `Number.isInteger`
on them is `Rat.isInt`. -/
inductive SplitBy where
  | numberOfParts (n : ℚ)
  | size (partSize : ℚ)
deriving DecidableEq

inductive ExtraBytesHandling where
  | distribute
  | newFile
deriving DecidableEq

/-- The slice of `SplitFileOptions` the write pipeline reads.  The missing
`extraBytesHandling` defaults to `distribute` (src/index.ts line 88). -/
structure SplitOptions where
  splitBy : SplitBy
  extraBytesHandling : Option ExtraBytesHandling
deriving DecidableEq

/-- The sizing state of `splitFile` right before the streaming loop:
the `partSizes` array and `totalParts` as computed at src/index.ts lines
116-133. -/
structure Plan where
  partSizes : List ℕ
  totalParts : ℕ
deriving DecidableEq

/-- Extra-bytes accounting of `splitFile` (src/index.ts lines 116-133)
followed by the `partSize < 1` check (line 140), which is the last error
thrown before the streaming loop.  When `partSize = 0` the JS code computes
`extraBytes = NaN` and takes no comparison branch; `% 0` here returns
`fileSize` instead, but in both readings the `partSize < 1` error fires
before the plan is used, so the results agree. -/
def planTail (fileSize : ℕ) (options : SplitOptions) (partSize totalParts0 : ℕ) :
    Except String Plan :=
  let extraBytesHandling := options.extraBytesHandling.getD .distribute
  let extraBytes := fileSize % partSize
  let totalParts :=
    if extraBytesHandling = .newFile ∧ extraBytes > 0 then totalParts0 + 1 else totalParts0
  let baseExtra := extraBytes / totalParts
  let rem := extraBytes % totalParts
  let partSizes :=
    if extraBytes > 0 ∧ extraBytesHandling = .distribute then
      (List.range totalParts).map fun i =>
        partSize + baseExtra + if i < rem then 1 else 0
    else
      List.replicate totalParts partSize
  if partSize < 1 then .error msgTooManyParts
  else .ok ⟨partSizes, totalParts⟩

/-- Argument validation and part-size derivation of `splitFile`
(src/index.ts lines 70-142).  The code's combined integer check (lines
74-80) branches on `splitBy` exactly as the per-branch checks here do, and
throws before the count / size range checks, as here. -/
def splitPlan (fileSize : ℕ) (options : SplitOptions) : Except String Plan :=
  if fileSize = 0 then .error msgEmpty
  else
    match options.splitBy with
    | .numberOfParts n =>
      if ¬ n.isInt then .error msgNotInteger
      else if n < 1 then .error msgCountTooSmall
      else planTail fileSize options (fileSize / n.num.toNat) n.num.toNat
    | .size s =>
      if ¬ s.isInt then .error msgNotInteger
      else if (fileSize : ℚ) < s then .error (msgPartTooBig s fileSize)
      else if s ≤ 0 then .error msgPartNegative
      else planTail fileSize options s.num.toNat (fileSize / s.num.toNat)

/-! ### splitFile: the streaming write loop -/

/-- Result of the write loop.  `ok` carries the parts' contents in order.
`ioError` marks an injected failure of the underlying sink (`writer.write`
/ `flush`, src/index.ts lines 158-159) and carries the part files on disk
at that point.  `hang` marks the state in which `bytesToWrite = 0` with
input bytes left: the inner `while` loop then repeats the identical state
forever, so the call never resolves. -/
inductive WriteResult where
  | ok (parts : List (List Char))
  | ioError (parts : List (List Char))
  | hang (parts : List (List Char))
deriving DecidableEq

/-- The chunk-consuming write loop of `splitFile` (src/index.ts lines
144-174), processing the input as a single chunk: chunk granularity does
not change which byte lands in which part, because the loop slices every
chunk at the same part boundaries.  `failAfter` is the number of remaining
successful sink writes before an injected I/O failure (`none`: the sink
never fails); `cur` is the open part, `done` the closed parts. -/
def writeGo (partSizes : List ℕ) (totalParts : ℕ) (failAfter : Option ℕ)
    (currentPart currentSize : ℕ) (cur : List Char) (done : List (List Char))
    (chunk : List Char) : WriteResult :=
  match chunk with
  | [] => .ok (done ++ [cur])
  | c :: rest =>
    let expectedSize := partSizes.getD (currentPart - 1) 0
    let bytesToWrite := min (expectedSize - currentSize) (c :: rest).length
    if hzero : bytesToWrite = 0 then .hang (done ++ [cur])
    else if failAfter = some 0 then .ioError (done ++ [cur])
    else
      let cur2 := cur ++ (c :: rest).take bytesToWrite
      let currentSize2 := currentSize + bytesToWrite
      let failAfter2 := failAfter.map (· - 1)
      let rest2 := (c :: rest).drop bytesToWrite
      if currentPart < totalParts ∧ expectedSize ≤ currentSize2 then
        writeGo partSizes totalParts failAfter2 (currentPart + 1) 0 [] (done ++ [cur2]) rest2
      else
        writeGo partSizes totalParts failAfter2 currentPart currentSize2 cur2 done rest2
termination_by chunk.length
decreasing_by
  all_goals
    simp only [List.length_drop, List.length_cons]
    omega

/-- Caller-observable outcome of a `splitFile` call: the parts written, or
the wrapped error (src/index.ts lines 188-195) together with the part files
present on disk when it propagates (the catch block removes no files), or
divergence of the write loop. -/
inductive SplitOutcome where
  | ok (parts : List (List Char))
  | err (message : String) (cause : Option String) (partsOnDisk : List (List Char))
  | hang (partsOnDisk : List (List Char))
deriving DecidableEq

/-- The wrap applied by `splitFile`'s catch block (src/index.ts lines
188-195): prefix the message, keep the original error as the cause. -/
def wrapSplitError (cause : String) (partsOnDisk : List (List Char)) : SplitOutcome :=
  .err ("Failed to split the file: " ++ cause) (some cause) partsOnDisk

/-- Model of `splitFile` (src/index.ts lines 52-196) applied to the input
file's bytes.  Every validation error is thrown before the first
`writer.write` call, so no part content is on disk for those. -/
def splitFileModel (file : List Char) (options : SplitOptions)
    (failAfter : Option ℕ) : SplitOutcome :=
  match splitPlan file.length options with
  | .error e => wrapSplitError e []
  | .ok plan =>
    match writeGo plan.partSizes plan.totalParts failAfter 1 0 [] [] file with
    | .ok parts => .ok parts
    | .ioError parts => wrapSplitError msgIOFailure parts
    | .hang parts => .hang parts

/-! ### mergeFiles: the ordering key

The code orders part paths with the regex `(\d+)(?=\.\w+$|$)` (src/index.ts
lines 240-247): the leftmost digit run that is followed either by the end of
the string or by a final extension (a dot and then word characters up to the
end), parsed with `parseInt`; paths without a match get
`Number.MAX_SAFE_INTEGER`.  Because a `\d+` match can only end where a
non-digit follows, a qualifying match is always a maximal digit run, so the
scan below walks the string run by run. -/

def isDigitChar (c : Char) : Bool := '0' ≤ c && c ≤ '9'

/-- JS `\w` (word character): ASCII letter, digit, or underscore. -/
def isWordChar (c : Char) : Bool :=
  ('a' ≤ c && c ≤ 'z') || ('A' ≤ c && c ≤ 'Z') || isDigitChar c || c == '_'

/-- The regex lookahead `(?=\.\w+$|$)` applied to the text following a digit
run: end of input, or one dot followed by at least one word character and
nothing else. -/
def regexLookahead : List Char → Bool
  | [] => true
  | '.' :: t => !t.isEmpty && t.all isWordChar
  | _ => false

/-- `parseInt` on a run of decimal digits. -/
def digitsToNat (l : List Char) : ℕ :=
  l.foldl (fun acc c => 10 * acc + (c.toNat - '0'.toNat)) 0

def maxSafeInteger : ℕ := 9007199254740991

/-- Single left-to-right scan implementing the regex match: the first
argument holds the digits (reversed) of the run currently being read, or
`none` outside a run.  A run that ends is kept if the lookahead accepts the
remaining text, otherwise the scan continues after it (the character that
ended the run is not a digit, so no new run can start on it). -/
def extractScan : Option (List Char) → List Char → ℕ
  | none, [] => maxSafeInteger
  | some acc, [] => digitsToNat acc.reverse
  | none, c :: rest =>
    if isDigitChar c then extractScan (some [c]) rest else extractScan none rest
  | some acc, c :: rest =>
    if isDigitChar c then extractScan (some (c :: acc)) rest
    else if regexLookahead (c :: rest) then digitsToNat acc.reverse
    else extractScan none rest

/-- The sort key `extractNumber` of `mergeFiles` (src/index.ts lines
242-245). -/
def extractNumber (s : String) : ℕ := extractScan none s.data

/-- The comparator relation of `inputFilePaths.sort((a, b) =>
extractNumber(a) - extractNumber(b))`: ascending extracted index. -/
def mergeLe (a b : String) : Prop := extractNumber a ≤ extractNumber b

instance : DecidableRel mergeLe :=
  fun a b => inferInstanceAs (Decidable (extractNumber a ≤ extractNumber b))

/-- Strict version of the comparator, used to show that a list with
pairwise-distinct keys has a unique sorted order. -/
def mergeLt (a b : String) : Prop := extractNumber a < extractNumber b

instance : IsAntisymm String mergeLt :=
  ⟨fun _ _ h1 h2 => absurd h1 (Nat.lt_asymm h2)⟩

instance : IsTotal String mergeLe := ⟨fun _ _ => Nat.le_total _ _⟩

instance : IsTrans String mergeLe := ⟨fun _ _ _ => Nat.le_trans⟩

/-- JS `Array.prototype.sort` with the comparator above.  It is required to
be stable, and `List.insertionSort` is a stable sort, so both produce the
same reordering; the sort happens in place on the caller's array
(src/index.ts line 241). -/
def sortPaths (paths : List String) : List String := List.insertionSort mergeLe paths

/-! ### mergeFiles: error messages (src/index.ts lines 223-301) -/

def msgEmptyList : String := "Input files list is empty"

def msgBadChecksumExt : String :=
  "Provided checksum file has an invalid or unsupported extension"

def msgPartMissing (p : String) : String := "File part [" ++ p ++ "] does not exist"

def msgPartEmpty (p : String) : String := "File part [" ++ p ++ "] is empty"

def msgChecksumMismatch (expected got : String) : String :=
  "Checksum mismatch: expected " ++ expected ++ ", got " ++ got

/-- Message standing for the error the runtime throws when the checksum
sidecar file itself cannot be read (src/index.ts line 281). -/
def msgChecksumFileMissing : String := "Checksum file could not be read"

/-! ### mergeFiles: the pipeline -/

/-- The supported hash algorithm identifiers (src/index.ts lines 7-26). -/
def SUPPORTED_HASH_ALG : List String :=
  ["blake2b256", "blake2b512", "md4", "md5", "ripemd160", "sha1", "sha224",
   "sha256", "sha384", "sha512", "sha512-224", "sha512-256", "sha3-224",
   "sha3-256", "sha3-384", "sha3-512", "shake128", "shake256"]

/-- JS `String.prototype.split('.')` on the characters of a path; the
accumulator holds the current segment reversed. -/
def splitOnDotAux : List Char → List Char → List (List Char)
  | [], acc => [acc.reverse]
  | '.' :: rest, acc => acc.reverse :: splitOnDotAux rest []
  | c :: rest, acc => splitOnDotAux rest (c :: acc)

def splitOnDot (s : String) : List String :=
  (splitOnDotAux s.data []).map fun l => ⟨l⟩

/-- Validation of the checksum sidecar path (src/index.ts lines 229-238):
`checksumPath.split('.').at(-1)` must be a non-empty supported algorithm
name (an empty last segment is falsy in JS). -/
def checksumExtCheck : Option String → Except String Unit
  | none => .ok ()
  | some p =>
    match (splitOnDot p).getLast? with
    | none => .error msgBadChecksumExt
    | some ext =>
      if ext = "" ∨ ¬ SUPPORTED_HASH_ALG.contains ext then .error msgBadChecksumExt
      else .ok ()

/-- JS whitespace as used by `String.prototype.trim` (the ASCII portion,
which covers checksum sidecar content). -/
def isJsSpace (c : Char) : Bool := c == ' ' || c == '\t' || c == '\n' || c == '\r'

def jsTrim (s : String) : String :=
  ⟨((s.data.dropWhile isJsSpace).reverse.dropWhile isJsSpace).reverse⟩

structure MergeOptions where
  checksumPath : Option String
  deletePartsAfterMerge : Bool
deriving DecidableEq

/-- A JS `Error` as observed by the caller: its message and the `cause`
option it was constructed with. -/
structure JsError where
  message : String
  cause : Option String
deriving DecidableEq

/-- Caller-observable result of a `mergeFiles` call: the thrown error if
any, the destination file's content (`none` while the destination writer
was never created), the final state of the caller's `inputFilePaths` array
(the code sorts it in place, src/index.ts line 241), and the final file
store (parts may be deleted on success). -/
structure MergeResult where
  error : Option JsError
  destination : Option (List Char)
  finalPaths : List String
  finalFs : List (String × List Char)
deriving DecidableEq

/-- The wrap applied by `mergeFiles`' catch block (src/index.ts lines
296-303). -/
def wrapMergeError (cause : String) (destination : Option (List Char))
    (finalPaths : List String) (finalFs : List (String × List Char)) : MergeResult :=
  { error := some ⟨"Failed to merge the file: " ++ cause, some cause⟩,
    destination := destination, finalPaths := finalPaths, finalFs := finalFs }

/-- Bytes the merge write loop streams to the destination: each part of the
sorted list in full, in order (src/index.ts lines 267-276). -/
def mergedBytes (fs : List (String × List Char)) (files : List String) : List Char :=
  (files.map fun f => (List.lookup f fs).getD []).flatten

/-- Merge pipeline from the validation pass on (src/index.ts lines
249-295), applied to the already sorted path list: per-part exists / size
stats, first-missing then first-empty checks (both before the destination
writer is created), the write loop, checksum verification against the
trimmed sidecar text, and part deletion on success. -/
def mergeAfterChecks (fs : List (String × List Char)) (hashFn : List Char → String)
    (options : MergeOptions) (files : List String) : MergeResult :=
  let fileStats := files.map fun f => (f, List.lookup f fs)
  match fileStats.find? fun st => !st.2.isSome with
  | some st => wrapMergeError (msgPartMissing st.1) none files fs
  | none =>
    match fileStats.find? fun st => (st.2.getD []).length == 0 with
    | some st => wrapMergeError (msgPartEmpty st.1) none files fs
    | none =>
      let dest := mergedBytes fs files
      let doneFs := if options.deletePartsAfterMerge then
          fs.filter fun e => ¬ files.contains e.1
        else fs
      match options.checksumPath with
      | none =>
        { error := none, destination := some dest, finalPaths := files, finalFs := doneFs }
      | some ck =>
        match List.lookup ck fs with
        | none => wrapMergeError msgChecksumFileMissing (some dest) files fs
        | some ref =>
          let originalChecksum := jsTrim ⟨ref⟩
          let computed := hashFn dest
          if originalChecksum ≠ computed then
            wrapMergeError (msgChecksumMismatch originalChecksum computed)
              (some dest) files fs
          else
            { error := none, destination := some dest, finalPaths := files,
              finalFs := doneFs }

/-- Model of `mergeFiles` (src/index.ts lines 209-304).  `fs` is the file
store, `hashFn` the opaque hasher's hex digest over a whole byte sequence
(the code feeds it every chunk of every sorted part, in order).  The
empty-list check and the checksum-extension check run before the in-place
sort, everything else after it. -/
def mergeFilesModel (fs : List (String × List Char)) (hashFn : List Char → String)
    (inputFilePaths : List String) (options : MergeOptions) : MergeResult :=
  if inputFilePaths = [] then wrapMergeError msgEmptyList none inputFilePaths fs
  else
    match checksumExtCheck options.checksumPath with
    | .error e => wrapMergeError e none inputFilePaths fs
    | .ok _ => mergeAfterChecks fs hashFn options (sortPaths inputFilePaths)

/-! ### Specification-side remainder handling, for comparison

The specification defines the remainder of a count-based split as
`fileSize mod count` and describes how each extra-bytes policy places it;
the definitions below transcribe those words so that the divergence of the
code (which distributes `fileSize mod floor(fileSize/count)` instead) can
be exhibited at a concrete input. -/

/-- Modelled from the spec: under `Distribute`, with `base =
floor(remainder/partCount)` and `rem = remainder mod partCount`, the first
`rem` parts receive `base + 1` extra bytes and the rest `base`. -/
def specDistributeSizes (baseSize partCount remainder : ℕ) : List ℕ :=
  (List.range partCount).map fun i =>
    baseSize + remainder / partCount + if i < remainder % partCount then 1 else 0

/-- Modelled from the spec: under `NewFile`, if the remainder is positive
one extra terminal part holding exactly the remainder is appended and every
other part keeps the unmodified base size. -/
def specNewFileSizes (baseSize partCount remainder : ℕ) : List ℕ :=
  List.replicate partCount baseSize ++ if remainder > 0 then [remainder] else []

/-! ### Claim C1 -/

/-- C1: the round-trip property fails on the code.  For the ten-byte file
split by `numberOfParts = 4` (a valid specification), the write loop of
`splitFile` reaches the state where the last planned part is full while two
input bytes remain, makes no further progress, and never resolves; only
eight of the ten bytes are ever assigned to parts, so no part set that
merges back to the file is produced. -/
theorem C1_roundtrip_failing_eval :
    splitFileModel "abcdefghij".data
        ⟨.numberOfParts 4, some .distribute⟩ none =
      .hang [['a', 'b'], ['c', 'd'], ['e', 'f'], ['g', 'h']] ∧
    List.flatten [['a', 'b'], ['c', 'd'], ['e', 'f'], ['g', 'h']] ≠ "abcdefghij".data := by
  constructor
  · simp +decide [splitFileModel, splitPlan, planTail, writeGo]
  · decide

/-! ### Claim C2 -/

/-- C2: size conservation fails on the code.  For `fileSize = 10` and a
count-based request with 4 parts, the code redistributes
`fileSize mod partSize = 10 mod 2 = 0` bytes instead of the specified
`fileSize mod count = 2`, so the planned part sizes `[2, 2, 2, 2]` sum to
8, not to the file size. -/
theorem C2_size_conservation_failing_eval :
    splitPlan 10 ⟨.numberOfParts 4, some .distribute⟩ = .ok ⟨[2, 2, 2, 2], 4⟩ ∧
    ([2, 2, 2, 2] : List ℕ).sum = 8 ∧ 10 % 4 = 2 ∧ (8 : ℕ) ≠ 10 := by
  refine ⟨?_, by decide, by decide, by decide⟩
  simp +decide [splitPlan, planTail]

/-! ### Claim C3 -/

/-- C3: the Distribute placement fails on the code for count-based splits
whose remainder reaches the base part size.  At `fileSize = 10`,
`count = 4` the spec's remainder is `10 mod 4 = 2` and its front-loaded
distribution yields `[3, 3, 2, 2]`, but the code distributes
`10 mod floor(10/4) = 0` extra bytes, leaving `[2, 2, 2, 2]`: no part
receives the extra byte the claim assigns to the first two parts. -/
theorem C3_distribute_failing_eval :
    splitPlan 10 ⟨.numberOfParts 4, some .distribute⟩ = .ok ⟨[2, 2, 2, 2], 4⟩ ∧
    specDistributeSizes (10 / 4) 4 (10 % 4) = [3, 3, 2, 2] ∧
    ([3, 3, 2, 2] : List ℕ) ≠ [2, 2, 2, 2] := by
  refine ⟨?_, by decide, by decide⟩
  simp +decide [splitPlan, planTail]

/-! ### Claim C4 -/

/-- C4: the NewFile policy fails on the code for count-based splits whose
remainder reaches the base part size.  At `fileSize = 10`, `count = 4` the
spec's remainder `10 mod 4 = 2` is positive, so one terminal part of
exactly 2 bytes should be appended; the code tests
`fileSize mod partSize = 10 mod 2 = 0` instead, appends nothing, and its
write loop then hangs with two input bytes left over. -/
theorem C4_newfile_failing_eval :
    splitPlan 10 ⟨.numberOfParts 4, some .newFile⟩ = .ok ⟨[2, 2, 2, 2], 4⟩ ∧
    specNewFileSizes (10 / 4) 4 (10 % 4) = [2, 2, 2, 2, 2] ∧
    splitFileModel "abcdefghij".data ⟨.numberOfParts 4, some .newFile⟩ none =
      .hang [['a', 'b'], ['c', 'd'], ['e', 'f'], ['g', 'h']] := by
  refine ⟨?_, by decide, ?_⟩
  · simp +decide [splitPlan, planTail]
  · simp +decide [splitFileModel, splitPlan, planTail, writeGo]

/-! ### Claim C8 -/

/-- C8: the cleanup half of the claim fails on the code.  When the sink
fails on the second write of a six-byte file split into two parts, the
wrapped error propagates (with the stable prefix and the original cause)
while the fully written first part and the opened second part are still on
disk: the catch block of `splitFile` removes nothing. -/
theorem C8_no_cleanup_failing_eval :
    splitFileModel "abcdef".data ⟨.numberOfParts 2, some .distribute⟩ (some 1) =
      .err ("Failed to split the file: " ++ msgIOFailure) (some msgIOFailure)
        [['a', 'b', 'c'], []] ∧
    ([['a', 'b', 'c'], []] : List (List Char)) ≠ [] := by
  constructor
  · simp +decide [splitFileModel, splitPlan, planTail, writeGo, wrapSplitError, msgIOFailure]
  · decide

/-! ### Claim C5 -/

/-- C5 counterexample: merge output is not invariant under permutation of
the input list when two paths carry the same embedded index.  The paths
`x.001` and `y.001` both have key 1; the stable sort keeps their relative
order, so the two orderings of the same two-element set produce different
destination contents. -/
theorem C5_counterexample :
    List.Perm ["y.001", "x.001"] ["x.001", "y.001"] ∧
    (mergeFilesModel [("x.001", ['a']), ("y.001", ['b'])] (fun _ => "")
        ["x.001", "y.001"] ⟨none, false⟩).destination = some ['a', 'b'] ∧
    (mergeFilesModel [("x.001", ['a']), ("y.001", ['b'])] (fun _ => "")
        ["y.001", "x.001"] ⟨none, false⟩).destination = some ['b', 'a'] ∧
    some ['a', 'b'] ≠ some ['b', 'a'] := by
  refine ⟨by decide, by decide, by decide, by decide⟩

/-! ### Helper lemmas on the merge pipeline -/

/-- Every branch of the post-sort merge pipeline reports the sorted list as
the final state of the caller's array. -/
lemma mergeAfterChecks_finalPaths (fs : List (String × List Char))
    (hashFn : List Char → String) (options : MergeOptions) (files : List String) :
    (mergeAfterChecks fs hashFn options files).finalPaths = files := by
  simp only [mergeAfterChecks]
  repeat first | rfl | split

/-- A `mergeFiles` call that passes the empty-list and checksum-extension
checks runs the post-sort pipeline on the sorted paths. -/
lemma mergeFilesModel_eq_afterChecks (fs : List (String × List Char))
    (hashFn : List Char → String) (paths : List String) (options : MergeOptions)
    (hne : paths ≠ []) (hck : checksumExtCheck options.checksumPath = .ok ()) :
    mergeFilesModel fs hashFn paths options =
      mergeAfterChecks fs hashFn options (sortPaths paths) := by
  unfold mergeFilesModel
  rw [if_neg hne, hck]

/-! ### Claim C10 -/

/-- C10: `mergeFiles` sorts the caller-supplied `inputFilePaths` array in
place.  For every call that reaches the sort (the list is non-empty and the
checksum-extension check passes; this includes every successful call and
every call failing after the sort), the caller's array ends up reordered
into merge order. -/
theorem C10_sorts_callers_array_in_place
    (fs : List (String × List Char)) (hashFn : List Char → String)
    (paths : List String) (options : MergeOptions)
    (hne : paths ≠ []) (hck : checksumExtCheck options.checksumPath = .ok ()) :
    (mergeFilesModel fs hashFn paths options).finalPaths = sortPaths paths := by
  rw [mergeFilesModel_eq_afterChecks fs hashFn paths options hne hck]
  exact mergeAfterChecks_finalPaths fs hashFn options (sortPaths paths)

/-- Witness for C10 at a concrete successful reordering call. -/
theorem C10_witness :
    (["b.002", "a.001"] : List String) ≠ [] ∧
    checksumExtCheck (none : Option String) = .ok () ∧
    (mergeFilesModel [("a.001", ['x']), ("b.002", ['y'])] (fun _ => "")
        ["b.002", "a.001"] ⟨none, false⟩).finalPaths = sortPaths ["b.002", "a.001"] ∧
    sortPaths ["b.002", "a.001"] = ["a.001", "b.002"] :=
  ⟨by decide, rfl,
    C10_sorts_callers_array_in_place [("a.001", ['x']), ("b.002", ['y'])] (fun _ => "")
      ["b.002", "a.001"] ⟨none, false⟩ (by decide) rfl,
    by decide⟩

/-! ### Claim C6 -/

/-- C6: the validation pass of `mergeFiles` runs before any destination
byte is written.  If some part path is missing from the file store, the
call fails with the wrapped does-not-exist error for a missing path and the
destination writer is never created (`destination = none`); if every part
exists but some part is empty, it fails likewise with the distinct
is-empty error.  Both errors carry the sorted path list (the array was
already sorted in place) and leave the file store untouched. -/
theorem C6_validation_before_write
    (fs : List (String × List Char)) (hashFn : List Char → String)
    (paths : List String) (options : MergeOptions)
    (hne : paths ≠ []) (hck : checksumExtCheck options.checksumPath = .ok ()) :
    ((∃ p ∈ paths, List.lookup p fs = none) →
      ∃ q ∈ paths, List.lookup q fs = none ∧
        mergeFilesModel fs hashFn paths options =
          wrapMergeError (msgPartMissing q) none (sortPaths paths) fs) ∧
    ((∀ p ∈ paths, (List.lookup p fs).isSome) →
      (∃ p ∈ paths, List.lookup p fs = some []) →
      ∃ q ∈ paths, List.lookup q fs = some [] ∧
        mergeFilesModel fs hashFn paths options =
          wrapMergeError (msgPartEmpty q) none (sortPaths paths) fs) := by
  have hperm : (sortPaths paths).Perm paths := List.perm_insertionSort _ _
  have hmodel := mergeFilesModel_eq_afterChecks fs hashFn paths options hne hck
  constructor
  · rintro ⟨p, hp, hlook⟩
    have hpf : p ∈ sortPaths paths := hperm.mem_iff.2 hp
    have hmem : (p, List.lookup p fs) ∈
        (sortPaths paths).map fun f => (f, List.lookup f fs) :=
      List.mem_map_of_mem _ hpf
    have hex : (((sortPaths paths).map fun f => (f, List.lookup f fs)).find?
        fun st => !st.2.isSome).isSome := by
      rw [List.find?_isSome]
      exact ⟨(p, List.lookup p fs), hmem, by simp [hlook]⟩
    obtain ⟨st, hfind⟩ := Option.isSome_iff_exists.1 hex
    have hstp := List.find?_some hfind
    have hstm : st ∈ (sortPaths paths).map fun f => (f, List.lookup f fs) :=
      List.mem_of_find?_eq_some hfind
    obtain ⟨q, hqf, hqe⟩ := List.mem_map.1 hstm
    rw [← hqe] at hstp
    simp only [Bool.not_eq_true'] at hstp
    refine ⟨q, hperm.mem_iff.1 hqf, Option.not_isSome_iff_eq_none.1 (by simp [hstp]), ?_⟩
    rw [hmodel]
    simp only [mergeAfterChecks]
    rw [hfind, ← hqe]
  · intro hall
    rintro ⟨p, hp, hlook⟩
    have hnone : (((sortPaths paths).map fun f => (f, List.lookup f fs)).find?
        fun st => !st.2.isSome) = none := by
      rw [List.find?_eq_none]
      intro st hmem
      obtain ⟨q0, hq0, hq0e⟩ := List.mem_map.1 hmem
      rw [← hq0e]
      simpa using hall q0 (hperm.mem_iff.1 hq0)
    have hpf : p ∈ sortPaths paths := hperm.mem_iff.2 hp
    have hmem : (p, List.lookup p fs) ∈
        (sortPaths paths).map fun f => (f, List.lookup f fs) :=
      List.mem_map_of_mem _ hpf
    have hex : (((sortPaths paths).map fun f => (f, List.lookup f fs)).find?
        fun st => (st.2.getD []).length == 0).isSome := by
      rw [List.find?_isSome]
      exact ⟨(p, List.lookup p fs), hmem, by simp [hlook]⟩
    obtain ⟨st, hfind⟩ := Option.isSome_iff_exists.1 hex
    have hstp := List.find?_some hfind
    have hstm : st ∈ (sortPaths paths).map fun f => (f, List.lookup f fs) :=
      List.mem_of_find?_eq_some hfind
    obtain ⟨q, hqf, hqe⟩ := List.mem_map.1 hstm
    rw [← hqe] at hstp
    have hqs : (List.lookup q fs).isSome := hall q (hperm.mem_iff.1 hqf)
    obtain ⟨c, hc⟩ := Option.isSome_iff_exists.1 hqs
    have hcnil : c = [] := by
      simp only [hc, Option.getD_some, beq_iff_eq, List.length_eq_zero] at hstp
      exact hstp
    refine ⟨q, hperm.mem_iff.1 hqf, by rw [hc, hcnil], ?_⟩
    rw [hmodel]
    simp only [mergeAfterChecks]
    rw [hnone, hfind, ← hqe]

/-- Witness for C6 at a concrete call with one part missing from disk. -/
theorem C6_witness :
    (["a.001", "b.002"] : List String) ≠ [] ∧
    checksumExtCheck (none : Option String) = .ok () ∧
    (∃ p ∈ (["a.001", "b.002"] : List String),
      List.lookup p [("a.001", ['x'])] = none) ∧
    (∃ q ∈ (["a.001", "b.002"] : List String),
      List.lookup q [("a.001", ['x'])] = none ∧
        mergeFilesModel [("a.001", ['x'])] (fun _ => "") ["a.001", "b.002"] ⟨none, false⟩ =
          wrapMergeError (msgPartMissing q) none (sortPaths ["a.001", "b.002"])
            [("a.001", ['x'])]) :=
  ⟨by decide, rfl, ⟨"b.002", by decide, by decide⟩,
    (C6_validation_before_write [("a.001", ['x'])] (fun _ => "") ["a.001", "b.002"]
        ⟨none, false⟩ (by decide) rfl).1 ⟨"b.002", by decide, by decide⟩⟩

/-! ### Claim C7 -/

/-- A successful run of the post-sort pipeline with a checksum path passed
the trimmed-reference comparison. -/
lemma mergeAfterChecks_error_none (fs : List (String × List Char))
    (hashFn : List Char → String) (options : MergeOptions) (files : List String)
    (ck : String) (hckPath : options.checksumPath = some ck)
    (h : (mergeAfterChecks fs hashFn options files).error = none) :
    ∃ ref, List.lookup ck fs = some ref ∧
      jsTrim ⟨ref⟩ = hashFn (mergedBytes fs files) := by
  simp only [mergeAfterChecks, hckPath] at h
  split at h
  · simp [wrapMergeError] at h
  · split at h
    · simp [wrapMergeError] at h
    · split at h
      · simp [wrapMergeError] at h
      · next ref hlook =>
        split at h
        · simp [wrapMergeError] at h
        · next hne2 =>
          exact ⟨ref, hlook, not_ne_iff.1 hne2⟩

/-- C7: when a reference digest path is supplied, the computed hex digest
is compared with the reference file's trimmed text by exact string
equality.  First conjunct: a run that reports no error must have found the
trimmed reference equal to the digest of the merged bytes (no success on a
mismatch).  Second conjunct: a run that reaches the comparison with the two
strings different fails with the wrapped checksum-mismatch error carrying
both strings, after the destination was written. -/
theorem C7_checksum_verification
    (fs : List (String × List Char)) (hashFn : List Char → String)
    (paths : List String) (options : MergeOptions) (ck : String)
    (hckPath : options.checksumPath = some ck) :
    ((mergeFilesModel fs hashFn paths options).error = none →
      ∃ ref, List.lookup ck fs = some ref ∧
        jsTrim ⟨ref⟩ = hashFn (mergedBytes fs (sortPaths paths))) ∧
    (∀ ref, paths ≠ [] →
      checksumExtCheck (some ck) = .ok () →
      (∀ p ∈ paths, ∃ c, List.lookup p fs = some c ∧ c ≠ []) →
      List.lookup ck fs = some ref →
      jsTrim ⟨ref⟩ ≠ hashFn (mergedBytes fs (sortPaths paths)) →
      mergeFilesModel fs hashFn paths options =
        wrapMergeError
          (msgChecksumMismatch (jsTrim ⟨ref⟩) (hashFn (mergedBytes fs (sortPaths paths))))
          (some (mergedBytes fs (sortPaths paths))) (sortPaths paths) fs) := by
  have hperm : (sortPaths paths).Perm paths := List.perm_insertionSort _ _
  constructor
  · intro h
    unfold mergeFilesModel at h
    split at h
    · simp [wrapMergeError] at h
    · split at h
      · simp [wrapMergeError] at h
      · exact mergeAfterChecks_error_none fs hashFn options (sortPaths paths) ck hckPath h
  · intro ref hne hckOk hall hlook hneq
    have hck : checksumExtCheck options.checksumPath = .ok () := by rw [hckPath]; exact hckOk
    rw [mergeFilesModel_eq_afterChecks fs hashFn paths options hne hck]
    have hnoneMissing : (((sortPaths paths).map fun f => (f, List.lookup f fs)).find?
        fun st => !st.2.isSome) = none := by
      rw [List.find?_eq_none]
      intro st hmem
      obtain ⟨q0, hq0, hq0e⟩ := List.mem_map.1 hmem
      rw [← hq0e]
      obtain ⟨c, hc, -⟩ := hall q0 (hperm.mem_iff.1 hq0)
      simp [hc]
    have hnoneEmpty : (((sortPaths paths).map fun f => (f, List.lookup f fs)).find?
        fun st => (st.2.getD []).length == 0) = none := by
      rw [List.find?_eq_none]
      intro st hmem
      obtain ⟨q0, hq0, hq0e⟩ := List.mem_map.1 hmem
      rw [← hq0e]
      obtain ⟨c, hc, hcne⟩ := hall q0 (hperm.mem_iff.1 hq0)
      simp [hc, List.length_eq_zero, hcne]
    simp only [mergeAfterChecks, hnoneMissing, hnoneEmpty, hckPath, hlook]
    rw [if_pos hneq]

/-- Witness for C7 at a concrete tampered-checksum call. -/
theorem C7_witness :
    ((mergeFilesModel [("a.001", ['x']), ("ck.sha256", ['y'])] (fun _ => "zz")
        ["a.001"] ⟨some "ck.sha256", false⟩).error = none →
      ∃ ref, List.lookup "ck.sha256" [("a.001", ['x']), ("ck.sha256", ['y'])] = some ref ∧
        jsTrim ⟨ref⟩ = (fun _ => "zz")
          (mergedBytes [("a.001", ['x']), ("ck.sha256", ['y'])] (sortPaths ["a.001"]))) ∧
    ((["a.001"] : List String) ≠ [] ∧
      checksumExtCheck (some "ck.sha256") = .ok () ∧
      List.lookup "ck.sha256" [("a.001", ['x']), ("ck.sha256", ['y'])] = some ['y'] ∧
      jsTrim ⟨['y']⟩ ≠ (fun _ => "zz")
        (mergedBytes [("a.001", ['x']), ("ck.sha256", ['y'])] (sortPaths ["a.001"])) ∧
      mergeFilesModel [("a.001", ['x']), ("ck.sha256", ['y'])] (fun _ => "zz")
          ["a.001"] ⟨some "ck.sha256", false⟩ =
        wrapMergeError
          (msgChecksumMismatch (jsTrim ⟨['y']⟩)
            ((fun _ => "zz")
              (mergedBytes [("a.001", ['x']), ("ck.sha256", ['y'])] (sortPaths ["a.001"]))))
          (some (mergedBytes [("a.001", ['x']), ("ck.sha256", ['y'])] (sortPaths ["a.001"])))
          (sortPaths ["a.001"]) [("a.001", ['x']), ("ck.sha256", ['y'])]) :=
  ⟨(C7_checksum_verification [("a.001", ['x']), ("ck.sha256", ['y'])] (fun _ => "zz")
      ["a.001"] ⟨some "ck.sha256", false⟩ "ck.sha256" rfl).1,
    by decide, rfl, by decide, by decide,
    (C7_checksum_verification [("a.001", ['x']), ("ck.sha256", ['y'])] (fun _ => "zz")
      ["a.001"] ⟨some "ck.sha256", false⟩ "ck.sha256" rfl).2 ['y'] (by decide) rfl
      (by decide) (by decide) (by decide)⟩

/-! ### Claim C5, amended -/

/-- A sorted list whose keys are pairwise distinct is strictly sorted by
key. -/
lemma sorted_strict_of_nodup_keys (l : List String)
    (hs : List.Sorted mergeLe l) (hnd : (l.map extractNumber).Nodup) :
    List.Sorted mergeLt l := by
  have hne : List.Pairwise (fun a b => extractNumber a ≠ extractNumber b) l :=
    List.pairwise_map.1 hnd
  exact (hs.and hne).imp fun h => Nat.lt_of_le_of_ne h.1 h.2

/-- Two permutations of the same paths with pairwise-distinct embedded
indices sort to the same list: the sorted order is unique. -/
lemma sortPaths_eq_of_perm (l1 l2 : List String) (hperm : l1.Perm l2)
    (hnd : (l1.map extractNumber).Nodup) : sortPaths l1 = sortPaths l2 := by
  have p1 : (sortPaths l1).Perm l1 := List.perm_insertionSort _ _
  have p2 : (sortPaths l2).Perm l2 := List.perm_insertionSort _ _
  have hp : (sortPaths l1).Perm (sortPaths l2) := p1.trans (hperm.trans p2.symm)
  have nd1 : ((sortPaths l1).map extractNumber).Nodup :=
    ((p1.map extractNumber).nodup_iff).2 hnd
  have nd2 : ((sortPaths l2).map extractNumber).Nodup :=
    ((hp.map extractNumber).nodup_iff).1 nd1
  exact List.eq_of_perm_of_sorted hp
    (sorted_strict_of_nodup_keys _ (List.sorted_insertionSort _ _) nd1)
    (sorted_strict_of_nodup_keys _ (List.sorted_insertionSort _ _) nd2)

/-- C5, amended: `mergeFiles` orders its input by the embedded numeric
index (last digit run before the final extension or at the end, with
digitless paths keyed `Number.MAX_SAFE_INTEGER`); whenever the extracted
keys of the supplied paths are pairwise distinct, every permutation of the
input list produces the same destination content and the same error
outcome.  (Without distinctness the stable sort preserves the tied paths'
relative order, and permuting them changes the output; see the
counterexample.) -/
theorem C5_amended_order_independence
    (fs : List (String × List Char)) (hashFn : List Char → String)
    (options : MergeOptions) (l1 l2 : List String)
    (hperm : l1.Perm l2) (hnd : (l1.map extractNumber).Nodup) :
    (mergeFilesModel fs hashFn l1 options).destination =
      (mergeFilesModel fs hashFn l2 options).destination ∧
    (mergeFilesModel fs hashFn l1 options).error =
      (mergeFilesModel fs hashFn l2 options).error := by
  have hsort : sortPaths l1 = sortPaths l2 := sortPaths_eq_of_perm l1 l2 hperm hnd
  by_cases h1 : l1 = []
  · have h2 : l2 = [] := by
      subst h1
      exact hperm.symm.eq_nil
    subst h1; subst h2
    exact ⟨rfl, rfl⟩
  · have h2 : l2 ≠ [] := by
      intro h
      subst h
      exact h1 hperm.eq_nil
    unfold mergeFilesModel
    rw [if_neg h1, if_neg h2, hsort]
    cases checksumExtCheck options.checksumPath with
    | error e => exact ⟨rfl, rfl⟩
    | ok u => exact ⟨rfl, rfl⟩

/-- Witness for C5's amended theorem at a concrete shuffled pair. -/
theorem C5_amended_witness :
    (["b.002", "a.001"] : List String).Perm ["a.001", "b.002"] ∧
    ((["b.002", "a.001"] : List String).map extractNumber).Nodup ∧
    (mergeFilesModel [("a.001", ['x']), ("b.002", ['y'])] (fun _ => "")
        ["b.002", "a.001"] ⟨none, false⟩).destination =
      (mergeFilesModel [("a.001", ['x']), ("b.002", ['y'])] (fun _ => "")
        ["a.001", "b.002"] ⟨none, false⟩).destination ∧
    (mergeFilesModel [("a.001", ['x']), ("b.002", ['y'])] (fun _ => "")
        ["b.002", "a.001"] ⟨none, false⟩).error =
      (mergeFilesModel [("a.001", ['x']), ("b.002", ['y'])] (fun _ => "")
        ["a.001", "b.002"] ⟨none, false⟩).error :=
  ⟨by decide, by decide,
    (C5_amended_order_independence [("a.001", ['x']), ("b.002", ['y'])] (fun _ => "")
      ⟨none, false⟩ ["b.002", "a.001"] ["a.001", "b.002"] (by decide) (by decide)).1,
    (C5_amended_order_independence [("a.001", ['x']), ("b.002", ['y'])] (fun _ => "")
      ⟨none, false⟩ ["b.002", "a.001"] ["a.001", "b.002"] (by decide) (by decide)).2⟩

/-! ### Claim C9 -/

/-- An integral rational is the cast of its numerator. -/
lemma ratNumCast_of_isInt (q : ℚ) (h : q.isInt) : (q.num : ℚ) = q := by
  have hden : q.den = 1 := by simpa [Rat.isInt] using h
  calc (q.num : ℚ) = (q.num : ℚ) / ((1 : ℕ) : ℚ) := by norm_num
    _ = (q.num : ℚ) / (q.den : ℚ) := by rw [hden]
    _ = q := Rat.num_div_den q

/-- A `splitPlan` error becomes the wrapped error with no part content on
disk. -/
lemma splitFileModel_of_plan_error (file : List Char) (options : SplitOptions)
    (fa : Option ℕ) (e : String) (h : splitPlan file.length options = .error e) :
    splitFileModel file options fa = wrapSplitError e [] := by
  unfold splitFileModel
  rw [h]

/-- A plan whose base part size is zero is rejected as having too many
parts. -/
lemma planTail_partSize_zero (fileSize : ℕ) (options : SplitOptions)
    (totalParts0 : ℕ) : planTail fileSize options 0 totalParts0 = .error msgTooManyParts := by
  simp [planTail]

/-- C9: each invalid split specification fails with its own distinguishable
error, wrapped by the split prefix, before any part content is written
(every one of these errors is thrown before the streaming loop runs).  The
five conjuncts cover `numberOfParts = 0`, fractional `numberOfParts`,
`partSize ≤ 0`, `partSize` greater than the file size, and `numberOfParts`
exceeding the file's byte count. -/
theorem C9_boundary_rejection :
    (∀ (file : List Char) (h : Option ExtraBytesHandling) (fa : Option ℕ),
      file ≠ [] →
      splitFileModel file ⟨.numberOfParts 0, h⟩ fa =
        wrapSplitError msgCountTooSmall []) ∧
    (∀ (file : List Char) (h : Option ExtraBytesHandling) (fa : Option ℕ) (n : ℚ),
      file ≠ [] → ¬ n.isInt →
      splitFileModel file ⟨.numberOfParts n, h⟩ fa =
        wrapSplitError msgNotInteger []) ∧
    (∀ (file : List Char) (h : Option ExtraBytesHandling) (fa : Option ℕ) (s : ℚ),
      file ≠ [] → s.isInt → s ≤ 0 →
      splitFileModel file ⟨.size s, h⟩ fa =
        wrapSplitError msgPartNegative []) ∧
    (∀ (file : List Char) (h : Option ExtraBytesHandling) (fa : Option ℕ) (s : ℚ),
      file ≠ [] → s.isInt → (file.length : ℚ) < s →
      splitFileModel file ⟨.size s, h⟩ fa =
        wrapSplitError (msgPartTooBig s file.length) []) ∧
    (∀ (file : List Char) (h : Option ExtraBytesHandling) (fa : Option ℕ) (n : ℚ),
      file ≠ [] → n.isInt → (file.length : ℚ) < n →
      splitFileModel file ⟨.numberOfParts n, h⟩ fa =
        wrapSplitError msgTooManyParts []) := by
  refine ⟨?_, ?_, ?_, ?_, ?_⟩
  · intro file h fa hne
    have hlen : ¬ file.length = 0 := by simpa [List.length_eq_zero] using hne
    refine splitFileModel_of_plan_error _ _ _ _ ?_
    simp only [splitPlan, if_neg hlen]
    rw [if_neg (by decide), if_pos (by decide)]
  · intro file h fa n hne hint
    have hlen : ¬ file.length = 0 := by simpa [List.length_eq_zero] using hne
    refine splitFileModel_of_plan_error _ _ _ _ ?_
    simp only [splitPlan, if_neg hlen]
    rw [if_pos hint]
  · intro file h fa s hne hint hle
    have hlen : ¬ file.length = 0 := by simpa [List.length_eq_zero] using hne
    have hpos : (0 : ℚ) < (file.length : ℚ) := by
      have : 0 < file.length := List.length_pos.2 hne
      exact_mod_cast this
    refine splitFileModel_of_plan_error _ _ _ _ ?_
    simp only [splitPlan, if_neg hlen]
    rw [if_neg (not_not_intro hint), if_neg (not_lt.2 (hle.trans hpos.le)),
      if_pos hle]
  · intro file h fa s hne hint hlt
    have hlen : ¬ file.length = 0 := by simpa [List.length_eq_zero] using hne
    refine splitFileModel_of_plan_error _ _ _ _ ?_
    simp only [splitPlan, if_neg hlen]
    rw [if_neg (not_not_intro hint), if_pos hlt]
  · intro file h fa n hne hint hlt
    have hlen : ¬ file.length = 0 := by simpa [List.length_eq_zero] using hne
    have hposn : 0 < file.length := List.length_pos.2 hne
    have hone : (1 : ℚ) ≤ (file.length : ℚ) := by exact_mod_cast hposn
    have hnot1 : ¬ n < 1 := not_lt.2 (hone.trans hlt.le)
    have hcast : ((file.length : ℤ) : ℚ) < (n.num : ℚ) := by
      rw [ratNumCast_of_isInt n hint]
      exact_mod_cast hlt
    have hlt2 : file.length < n.num.toNat := by
      have : (file.length : ℤ) < n.num := by exact_mod_cast hcast
      omega
    refine splitFileModel_of_plan_error _ _ _ _ ?_
    simp only [splitPlan, if_neg hlen]
    rw [if_neg (not_not_intro hint), if_neg hnot1, Nat.div_eq_of_lt hlt2]
    exact planTail_partSize_zero _ _ _

/-- Witness for C9 discharging each conjunct's hypotheses at concrete
invalid requests. -/
theorem C9_witness :
    ((['a'] : List Char) ≠ [] ∧
      splitFileModel ['a'] ⟨.numberOfParts 0, none⟩ none =
        wrapSplitError msgCountTooSmall []) ∧
    (¬ (⟨5, 2, by decide, by decide⟩ : ℚ).isInt ∧
      splitFileModel ['a'] ⟨.numberOfParts ⟨5, 2, by decide, by decide⟩, none⟩ none =
        wrapSplitError msgNotInteger []) ∧
    ((0 : ℚ).isInt ∧ (0 : ℚ) ≤ 0 ∧
      splitFileModel ['a'] ⟨.size 0, none⟩ none =
        wrapSplitError msgPartNegative []) ∧
    ((5 : ℚ).isInt ∧ (((['a', 'b', 'c'] : List Char).length : ℚ) < 5) ∧
      splitFileModel ['a', 'b', 'c'] ⟨.size 5, none⟩ none =
        wrapSplitError (msgPartTooBig 5 ['a', 'b', 'c'].length) []) ∧
    ((4 : ℚ).isInt ∧ (((['a', 'b', 'c'] : List Char).length : ℚ) < 4) ∧
      splitFileModel ['a', 'b', 'c'] ⟨.numberOfParts 4, none⟩ none =
        wrapSplitError msgTooManyParts []) :=
  ⟨⟨by decide, C9_boundary_rejection.1 ['a'] none none (by decide)⟩,
    ⟨by decide, C9_boundary_rejection.2.1 ['a'] none none ⟨5, 2, by decide, by decide⟩
      (by decide) (by decide)⟩,
    ⟨by decide, by decide,
      C9_boundary_rejection.2.2.1 ['a'] none none 0 (by decide) (by decide) (by decide)⟩,
    ⟨by decide, by decide,
      C9_boundary_rejection.2.2.2.1 ['a', 'b', 'c'] none none 5 (by decide) (by decide)
        (by decide)⟩,
    ⟨by decide, by decide,
      C9_boundary_rejection.2.2.2.2 ['a', 'b', 'c'] none none 4 (by decide) (by decide)
        (by decide)⟩⟩

end BunSplitFile
